import Mathlib

/-!
Formal model of the climate data-acquisition pipeline implemented in
`notebooks/01_data_acquisition_eda.py`.

The development embeds, as executable Lean definitions, the behaviour of:
  * `_get_json`            — the bounded-retry HTTP helper,
  * `get_daily_climate_year` / the level-wise range downloader,
  * the cache hit/miss handling and `_clean_daily_payload`,
  * `build_and_save_climate_2017` with the done/failed ledgers,
  * `assign_nearest_station` / `_active_mask_for_year`,
  * `get_aemet_stations`'s 2017-activity filter,
  * `impute_station_climate_2017` — the three-level median cascade.

Machine floats and the trigonometric haversine formula are abstracted by a
rational-valued distance parameter; all selection, ordering, retry, caching,
ledger and imputation logic is translated directly from the source.
-/

namespace Portfolio

/-- Body of an HTTP response as observed by the retry loop of `_get_json`:
either no content at all, a non-JSON (malformed) body, or a parsed JSON
payload (payloads are abstracted by a natural-number token). -/
inductive Body where
  | empty
  | malformed
  | json (p : Nat)
  deriving DecidableEq, Repr

/-- One network event seen by an attempt of `_get_json`: either the
connection is reset/aborted before a response exists, or a response with a
status code and a body arrives. -/
inductive NetEvent where
  | conn
  | resp (status : Nat) (body : Body)
  deriving DecidableEq, Repr

/-- Outcome of a single attempt of the `_get_json` loop: return a value,
abort the whole call (permanent 4xx), or fall through to the next retry. -/
inductive StepOut where
  | done (v : Option Nat)
  | abort
  | retry
  deriving DecidableEq, Repr

/-- Translation of the body of the `for` loop of `_get_json`
(lines 568-588 of the source): an empty body or a 204 returns `None`
before `raise_for_status` runs; a status ≥ 400 aborts when it is a
non-429 4xx and retries otherwise; a 2xx/3xx body is JSON-decoded,
retrying on a decode failure; a connection error retries. -/
def classify : NetEvent → StepOut
  | .conn => .retry
  | .resp st body =>
    if st = 204 ∨ body = .empty then .done none
    else if 400 ≤ st then
      (if st < 500 ∧ st ≠ 429 then .abort else .retry)
    else
      match body with
      | .json p => .done (some p)
      | .malformed => .retry
      | .empty => .done none

/-- Executes the retry loop of `_get_json` over the list of events that the
successive attempts would observe.  Returns the result (`Except.error ()`
models the final `RuntimeError`) together with the total number of HTTP
requests issued; `i` counts the requests already made. -/
def getJsonList (evs : List NetEvent) (i : Nat) : Except Unit (Option Nat) × Nat :=
  match evs with
  | [] => (Except.error (), i)
  | e :: rest =>
    match classify e with
    | .done v => (Except.ok v, i + 1)
    | .abort => (Except.error (), i + 1)
    | .retry => getJsonList rest (i + 1)

/-- Model of `_get_json url headers timeout tries`: the trace `tr k` is the
event observed by attempt `k` (0-based); the loop makes at most `tries`
attempts. -/
def getJson (tr : Nat → NetEvent) (tries : Nat) : Except Unit (Option Nat) × Nat :=
  getJsonList ((List.range tries).map tr) 0

/-- Transient failures exactly as the specification enumerates them:
connection reset, malformed JSON body, or HTTP status 429/500/502/503/504,
each carried by a response that does have a body (an empty body is the
distinct zero-content success case). -/
def claimTransient : NetEvent → Bool
  | .conn => true
  | .resp st body =>
    (body != Body.empty) && (st != 204) &&
      ((st == 429) || (st == 500) || (st == 502) || (st == 503) || (st == 504)
        || ((body == Body.malformed) && decide (st < 400)))

lemma classify_retry_of_claimTransient (e : NetEvent) (h : claimTransient e = true) :
    classify e = .retry := by
  cases e with
  | conn => rfl
  | resp st body =>
    cases body with
    | empty => simp [claimTransient] at h
    | malformed =>
      simp only [claimTransient, Bool.and_eq_true, Bool.or_eq_true, beq_iff_eq, bne_iff_ne,
        ne_eq, decide_eq_true_eq] at h
      obtain ⟨⟨-, h204⟩, hst⟩ := h
      have hne : ¬(st = 204 ∨ (Body.malformed = Body.empty)) := by simp [h204]
      simp only [classify, if_neg hne]
      split_ifs with h1 h2
      · exfalso; omega
      · rfl
      · rfl
    | json p =>
      simp only [claimTransient, Bool.and_eq_true, Bool.or_eq_true, beq_iff_eq, bne_iff_ne,
        ne_eq, decide_eq_true_eq] at h
      obtain ⟨⟨-, h204⟩, hst⟩ := h
      have hst2 : st = 429 ∨ st = 500 ∨ st = 502 ∨ st = 503 ∨ st = 504 := by
        rcases hst with h5 | ⟨h5, -⟩
        · tauto
        · exact absurd h5 (by simp)
      have hne : ¬(st = 204 ∨ (Body.json p = Body.empty)) := by simp [h204]
      simp only [classify, if_neg hne]
      split_ifs with h1 h2
      · exfalso; omega
      · rfl
      · exfalso; omega

lemma getJsonList_cons_retry (e : NetEvent) (l : List NetEvent) (i : Nat)
    (h : classify e = .retry) : getJsonList (e :: l) i = getJsonList l (i + 1) := by
  simp [getJsonList, h]

lemma getJsonList_skip (evs : List NetEvent) (pre : List NetEvent) (i : Nat)
    (h : ∀ e ∈ pre, classify e = .retry) :
    getJsonList (pre ++ evs) i = getJsonList evs (i + pre.length) := by
  induction pre generalizing i with
  | nil => simp
  | cons e rest ih =>
    have he : classify e = .retry := h e (by simp)
    rw [List.cons_append, getJsonList_cons_retry e (rest ++ evs) i he,
      ih (i + 1) (fun x hx => h x (List.mem_cons_of_mem e hx))]
    congr 1
    simp only [List.length_cons]
    omega

/-- After `j` observed transient attempts the loop state is exactly the loop
started at attempt index `j` on the remaining trace. -/
lemma getJson_eq_after (tr : Nat → NetEvent) (tries j : Nat) (hj : j ≤ tries)
    (h : ∀ k, k < j → classify (tr k) = .retry) :
    getJson tr tries
      = getJsonList ((List.range (tries - j)).map (fun x => tr (j + x))) j := by
  unfold getJson
  have hsplit : tries = j + (tries - j) := by omega
  conv_lhs => rw [hsplit, List.range_add, List.map_append]
  rw [getJsonList_skip _ _ 0 (by
    intro e he
    rw [List.mem_map] at he
    obtain ⟨k, hk, rfl⟩ := he
    exact h k (List.mem_range.mp hk))]
  simp [List.map_map, Function.comp_def]

/-- C4: `_get_json` returns the success payload after N-1 transient failures
followed by a success within `max_tries` attempts; it fails after `max_tries`
consecutive transient failures, having used exactly `max_tries` requests; and
a non-429 4xx response (with a body) aborts at once, leaving the remaining
attempts unused. -/
theorem get_json_retry_policy (tr : Nat → NetEvent) (tries : Nat) :
    (∀ N st p, 1 ≤ N → N ≤ tries →
      (∀ k, k < N - 1 → claimTransient (tr k) = true) →
      tr (N - 1) = .resp st (.json p) → st < 400 → st ≠ 204 →
      getJson tr tries = (Except.ok (some p), N)) ∧
    ((∀ k, k < tries → claimTransient (tr k) = true) →
      getJson tr tries = (Except.error (), tries)) ∧
    (∀ j st body, j < tries →
      (∀ k, k < j → claimTransient (tr k) = true) →
      tr j = .resp st body → 400 ≤ st → st < 500 → st ≠ 429 → body ≠ .empty →
      getJson tr tries = (Except.error (), j + 1)) := by
  refine ⟨?_, ?_, ?_⟩
  · intro N st p hN1 hNt htrans hev hst400 hst204
    rw [getJson_eq_after tr tries (N - 1) (by omega)
      (fun k hk => classify_retry_of_claimTransient _ (htrans k hk))]
    have hrng : tries - (N - 1) = (tries - N) + 1 := by omega
    rw [hrng, List.range_succ_eq_map, List.map_cons]
    have hcl : classify (tr (N - 1 + 0)) = .done (some p) := by
      have h0 : N - 1 + 0 = N - 1 := by omega
      rw [h0, hev]
      simp only [classify]
      rw [if_neg (by simp [hst204]), if_neg (by omega)]
    simp only [getJsonList, hcl]
    have : N - 1 + 1 = N := by omega
    rw [this]
  · intro htrans
    rw [getJson_eq_after tr tries tries le_rfl
      (fun k hk => classify_retry_of_claimTransient _ (htrans k hk))]
    simp [getJsonList]
  · intro j st body hj htrans hev h400 h500 h429 hbody
    rw [getJson_eq_after tr tries j (by omega)
      (fun k hk => classify_retry_of_claimTransient _ (htrans k hk))]
    have hrng : tries - j = (tries - j - 1) + 1 := by omega
    rw [hrng, List.range_succ_eq_map, List.map_cons]
    have hcl : classify (tr (j + 0)) = .abort := by
      rw [Nat.add_zero, hev]
      simp only [classify]
      rw [if_neg (by simp [hbody]; omega), if_pos (by omega), if_pos (by omega)]
    simp only [getJsonList, hcl]

/-- C8: a 204 status or a response with an empty body makes `_get_json`
return `None` as a success: it stops the loop right there — no exception and
no further attempts. -/
theorem get_json_empty_success (tr : Nat → NetEvent) (tries : Nat) :
    ∀ j st body, j < tries →
      (∀ k, k < j → claimTransient (tr k) = true) →
      tr j = .resp st body → (st = 204 ∨ body = .empty) →
      getJson tr tries = (Except.ok none, j + 1) := by
  intro j st body hj htrans hev hcase
  rw [getJson_eq_after tr tries j (by omega)
    (fun k hk => classify_retry_of_claimTransient _ (htrans k hk))]
  have hrng : tries - j = (tries - j - 1) + 1 := by omega
  rw [hrng, List.range_succ_eq_map, List.map_cons]
  have hcl : classify (tr (j + 0)) = .done none := by
    rw [Nat.add_zero, hev]
    simp only [classify]
    rw [if_pos hcase]
  simp only [getJsonList, hcl]

/-- Example trace: a connection reset, then a malformed-body 503, then a
successful JSON response. -/
def exTraceA : Nat → NetEvent :=
  fun k =>
    if k = 0 then NetEvent.conn
    else if k = 1 then NetEvent.resp 503 Body.malformed
    else NetEvent.resp 200 (Body.json 7)

/-- Example trace: every attempt sees an HTTP 500 carrying a body. -/
def exTraceB : Nat → NetEvent := fun _ => NetEvent.resp 500 (Body.json 0)

/-- Example trace: one connection reset, then a permanent 404 with a body. -/
def exTraceC : Nat → NetEvent :=
  fun k => if k = 0 then NetEvent.conn else NetEvent.resp 404 (Body.json 0)

theorem get_json_retry_policy_witness :
    (∀ k, k < 2 → claimTransient (exTraceA k) = true) ∧
    getJson exTraceA 5 = (Except.ok (some 7), 3) ∧
    getJson exTraceB 4 = (Except.error (), 4) ∧
    getJson exTraceC 5 = (Except.error (), 2) := by
  refine ⟨by decide, ?_, ?_, ?_⟩
  · exact (get_json_retry_policy exTraceA 5).1 3 200 7 (by norm_num) (by norm_num)
      (by decide) (by decide) (by norm_num) (by norm_num)
  · exact (get_json_retry_policy exTraceB 4).2.1 (by decide)
  · exact (get_json_retry_policy exTraceC 5).2.2 1 404 (Body.json 0) (by norm_num)
      (by decide) (by decide) (by norm_num) (by norm_num) (by norm_num) (by decide)

/-- Example trace: the first response is a 204. -/
def exTraceD : Nat → NetEvent := fun _ => NetEvent.resp 204 (Body.json 1)

/-- Example trace: the first response is a 404 whose body is empty. -/
def exTraceE : Nat → NetEvent := fun _ => NetEvent.resp 404 Body.empty

theorem get_json_empty_success_witness :
    getJson exTraceD 5 = (Except.ok none, 1) ∧
    getJson exTraceE 5 = (Except.ok none, 1) := by
  constructor
  · exact get_json_empty_success exTraceD 5 0 204 (Body.json 1) (by norm_num)
      (by decide) (by decide) (by norm_num)
  · exact get_json_empty_success exTraceE 5 0 404 Body.empty (by norm_num)
      (by decide) (by decide) (by decide)

/-- Insertion of an element into a list sorted in ascending key order. -/
def insertByKey {α : Type} (key : α → ℚ) (a : α) : List α → List α
  | [] => [a]
  | b :: l => if key a ≤ key b then a :: b :: l else b :: insertByKey key a l

/-- Ascending sort by a rational-valued key; models both `np.argsort` on the
distance row (through the resulting order) and the sort inside a pandas
median. -/
def sortByKey {α : Type} (key : α → ℚ) (l : List α) : List α :=
  l.foldr (insertByKey key) []

lemma length_insertByKey {α : Type} (key : α → ℚ) (a : α) (l : List α) :
    (insertByKey key a l).length = l.length + 1 := by
  induction l with
  | nil => rfl
  | cons b t ih =>
    rw [insertByKey]
    split_ifs
    · simp
    · simp [ih]

lemma perm_insertByKey {α : Type} (key : α → ℚ) (a : α) (l : List α) :
    List.Perm (insertByKey key a l) (a :: l) := by
  induction l with
  | nil => exact List.Perm.refl _
  | cons b t ih =>
    rw [insertByKey]
    split_ifs
    · exact List.Perm.refl _
    · exact (ih.cons b).trans (List.Perm.swap a b t)

lemma perm_sortByKey {α : Type} (key : α → ℚ) (l : List α) :
    List.Perm (sortByKey key l) l := by
  induction l with
  | nil => exact List.Perm.refl _
  | cons a t ih =>
    exact (perm_insertByKey key a (sortByKey key t)).trans (ih.cons a)

lemma length_sortByKey {α : Type} (key : α → ℚ) (l : List α) :
    (sortByKey key l).length = l.length :=
  (perm_sortByKey key l).length_eq

lemma mem_sortByKey {α : Type} (key : α → ℚ) (l : List α) (x : α) :
    x ∈ sortByKey key l ↔ x ∈ l :=
  (perm_sortByKey key l).mem_iff

lemma pairwise_insertByKey {α : Type} (key : α → ℚ) (a : α) (l : List α)
    (h : l.Pairwise (fun x y => key x ≤ key y)) :
    (insertByKey key a l).Pairwise (fun x y => key x ≤ key y) := by
  induction l with
  | nil => simp [insertByKey]
  | cons b t ih =>
    rw [List.pairwise_cons] at h
    obtain ⟨hb, ht⟩ := h
    rw [insertByKey]
    split_ifs with hab
    · rw [List.pairwise_cons]
      refine ⟨?_, ?_⟩
      · intro c hc
        rcases List.mem_cons.mp hc with rfl | hc
        · exact hab
        · exact le_trans hab (hb c hc)
      · rw [List.pairwise_cons]
        exact ⟨hb, ht⟩
    · rw [List.pairwise_cons]
      refine ⟨?_, ih ht⟩
      intro c hc
      have hc2 := (perm_insertByKey key a t).mem_iff.mp hc
      rcases List.mem_cons.mp hc2 with rfl | hc3
      · exact le_of_not_le hab
      · exact hb c hc3

lemma pairwise_sortByKey {α : Type} (key : α → ℚ) (l : List α) :
    (sortByKey key l).Pairwise (fun x y => key x ≤ key y) := by
  induction l with
  | nil => simp [sortByKey]
  | cons a t ih => exact pairwise_insertByKey key a (sortByKey key t) ih

/-- Median as pandas computes it over the non-null values of a column slice:
sort ascending, take the middle element for odd length and the mean of the
two middle elements for even length; `none` for an empty slice (an all-null
group, whose `transform("median")` is NaN). -/
def median (l : List ℚ) : Option ℚ :=
  if (sortByKey (fun q => q) l).length % 2 = 1 then
    (sortByKey (fun q => q) l).get? ((sortByKey (fun q => q) l).length / 2)
  else
    match (sortByKey (fun q => q) l).get? ((sortByKey (fun q => q) l).length / 2 - 1),
        (sortByKey (fun q => q) l).get? ((sortByKey (fun q => q) l).length / 2) with
    | some a, some b => some ((a + b) / 2)
    | _, _ => none

lemma median_nil : median [] = none := rfl

lemma median_isSome (l : List ℚ) (h : l ≠ []) : (median l).isSome := by
  unfold median
  have hlen : (sortByKey (fun q => q) l).length = l.length := length_sortByKey _ _
  have hpos : 0 < (sortByKey (fun q => q) l).length := by
    rw [hlen]
    exact List.length_pos.mpr h
  split_ifs with hodd
  · have hne : ¬ ((sortByKey (fun q => q) l).get? ((sortByKey (fun q => q) l).length / 2) = none) := by
      rw [List.get?_eq_none]
      omega
    exact Option.ne_none_iff_isSome.mp hne
  · have hne1 : ¬ ((sortByKey (fun q => q) l).get? ((sortByKey (fun q => q) l).length / 2 - 1) = none) := by
      rw [List.get?_eq_none]
      omega
    have hne2 : ¬ ((sortByKey (fun q => q) l).get? ((sortByKey (fun q => q) l).length / 2) = none) := by
      rw [List.get?_eq_none]
      omega
    rcases Option.ne_none_iff_exists.mp hne1 with ⟨a, ha⟩
    rcases Option.ne_none_iff_exists.mp hne2 with ⟨b, hb⟩
    rw [← ha, ← hb]
    rfl

/-- One row of the per-station daily climate table handed to
`impute_station_climate_2017`: the two grouping keys (`nearest_station`,
`month`) and the values of the `k` numeric columns, each independently
nullable. -/
structure ClimRow (k : Nat) where
  station : String
  month : Int
  vals : Fin k → Option ℚ

/-- Non-null values of column `c` over a list of rows. -/
def colOf {k : Nat} (rows : List (ClimRow k)) (c : Fin k) : List ℚ :=
  rows.filterMap (fun r => r.vals c)

/-- Stage-1 group median: rows sharing the same `(nearest_station, month)`. -/
def stationMonthMedian {k : Nat} (rows : List (ClimRow k)) (st : String) (m : Int)
    (c : Fin k) : Option ℚ :=
  median (colOf (rows.filter (fun r => r.station == st && r.month == m)) c)

/-- Stage-2 group median: rows sharing the same `nearest_station`. -/
def stationMedian {k : Nat} (rows : List (ClimRow k)) (st : String) (c : Fin k) : Option ℚ :=
  median (colOf (rows.filter (fun r => r.station == st)) c)

/-- Stage-3 global median of a column. -/
def globalMedian {k : Nat} (rows : List (ClimRow k)) (c : Fin k) : Option ℚ :=
  median (colOf rows c)

/-- Application of `df[c] = df[c].fillna(fill[c])` to every numeric column of
one row: null cells take the fill value, non-null cells are kept. -/
def fillRow {k : Nat} (f : ClimRow k → Fin k → Option ℚ) (r : ClimRow k) : ClimRow k :=
  { station := r.station
    month := r.month
    vals := fun c =>
      match r.vals c with
      | some v => some v
      | none => f r c }

def fillWith {k : Nat} (rows : List (ClimRow k)) (f : ClimRow k → Fin k → Option ℚ) :
    List (ClimRow k) :=
  rows.map (fillRow f)

/-- Translation of `impute_station_climate_2017` (source lines 899-917).
Stage 1 fills nulls with the `(station, month)` group medians computed on the
input; because the dataframe is filled in place, stage 2's per-station
medians are computed on the stage-1 result, and stage 3's global medians on
the stage-2 result. -/
def imputeStationClimate2017 {k : Nat} (rows : List (ClimRow k)) : List (ClimRow k) :=
  let r1 := fillWith rows (fun r c => stationMonthMedian rows r.station r.month c)
  let r2 := fillWith r1 (fun r c => stationMedian r1 r.station c)
  fillWith r2 (fun _ c => globalMedian r2 c)

/-- Modelled from the spec's words, for comparison with the source: the
three-level cascade in which every fallback median — station-month, station,
and global — is computed over the original input's non-null values. -/
def imputeAllInputMedians {k : Nat} (rows : List (ClimRow k)) : List (ClimRow k) :=
  rows.map (fun r =>
    { station := r.station
      month := r.month
      vals := fun c =>
        match r.vals c with
        | some v => some v
        | none =>
          match stationMonthMedian rows r.station r.month c with
          | some m1 => some m1
          | none =>
            match stationMedian rows r.station c with
            | some m2 => some m2
            | none => globalMedian rows c })

lemma fillRow_station {k : Nat} (f : ClimRow k → Fin k → Option ℚ) (r : ClimRow k) :
    (fillRow f r).station = r.station := rfl

lemma fillRow_month {k : Nat} (f : ClimRow k → Fin k → Option ℚ) (r : ClimRow k) :
    (fillRow f r).month = r.month := rfl

lemma fillRow_vals_some {k : Nat} (f : ClimRow k → Fin k → Option ℚ) (r : ClimRow k)
    (c : Fin k) (v : ℚ) (h : r.vals c = some v) : (fillRow f r).vals c = some v := by
  simp [fillRow, h]

lemma fillRow_vals_none {k : Nat} (f : ClimRow k → Fin k → Option ℚ) (r : ClimRow k)
    (c : Fin k) (h : r.vals c = none) : (fillRow f r).vals c = f r c := by
  simp [fillRow, h]

lemma colOf_eq_nil {k : Nat} (rows : List (ClimRow k)) (c : Fin k)
    (h : ∀ r ∈ rows, r.vals c = none) : colOf rows c = [] :=
  List.filterMap_eq_nil_iff.mpr h

lemma colOf_ne_nil_of_mem {k : Nat} {rows : List (ClimRow k)} {c : Fin k} {r : ClimRow k}
    {v : ℚ} (hr : r ∈ rows) (hv : r.vals c = some v) : colOf rows c ≠ [] := by
  intro h0
  have := List.filterMap_eq_nil_iff.mp h0 r hr
  rw [hv] at this
  cases this

/-- C2: after `impute_station_climate_2017`, a numeric column with at least
one non-null input value has no null left; every non-null input cell is
unchanged (with its row keys); a column that is entirely null in the input
stays entirely null, with no error raised. -/
theorem impute_completeness_and_preservation {k : Nat} (rows : List (ClimRow k)) (c : Fin k) :
    (imputeStationClimate2017 rows).length = rows.length ∧
    (∀ i r v, rows.get? i = some r → r.vals c = some v →
      ∃ s, (imputeStationClimate2017 rows).get? i = some s ∧ s.vals c = some v ∧
        s.station = r.station ∧ s.month = r.month) ∧
    ((∃ r ∈ rows, (r.vals c).isSome) →
      ∀ s ∈ imputeStationClimate2017 rows, (s.vals c).isSome) ∧
    ((∀ r ∈ rows, r.vals c = none) →
      ∀ s ∈ imputeStationClimate2017 rows, s.vals c = none) := by
  set g1 : ClimRow k → ClimRow k :=
    fillRow (fun r c2 => stationMonthMedian rows r.station r.month c2) with hg1
  set r1 : List (ClimRow k) :=
    fillWith rows (fun r c2 => stationMonthMedian rows r.station r.month c2) with hr1
  set g2 : ClimRow k → ClimRow k := fillRow (fun r c2 => stationMedian r1 r.station c2) with hg2
  set r2 : List (ClimRow k) := fillWith r1 (fun r c2 => stationMedian r1 r.station c2) with hr2
  have hout : imputeStationClimate2017 rows = fillWith r2 (fun _ c2 => globalMedian r2 c2) := rfl
  have hr1m : r1 = rows.map g1 := rfl
  have hr2m : r2 = r1.map g2 := rfl
  have houtm : imputeStationClimate2017 rows = r2.map (fillRow (fun _ c2 => globalMedian r2 c2)) :=
    rfl
  refine ⟨?_, ?_, ?_, ?_⟩
  · rw [houtm, hr2m, hr1m]
    simp
  · intro i r v hi hv
    refine ⟨fillRow (fun _ c2 => globalMedian r2 c2) (g2 (g1 r)), ?_, ?_, rfl, rfl⟩
    · rw [houtm, hr2m, hr1m]
      rw [List.get?_eq_getElem?] at hi ⊢
      simp [List.getElem?_map, hi]
    · exact fillRow_vals_some _ _ _ _ (fillRow_vals_some _ _ _ _ (fillRow_vals_some _ _ _ _ hv))
  · intro hex s hs
    obtain ⟨r, hr, hsome⟩ := hex
    obtain ⟨v, hv⟩ := Option.isSome_iff_exists.mp hsome
    have hmem2 : g2 (g1 r) ∈ r2 := by
      rw [hr2m, hr1m]
      exact List.mem_map_of_mem g2 (List.mem_map_of_mem g1 hr)
    have hv2 : (g2 (g1 r)).vals c = some v :=
      fillRow_vals_some _ _ _ _ (fillRow_vals_some _ _ _ _ hv)
    have hglob : (globalMedian r2 c).isSome :=
      median_isSome _ (colOf_ne_nil_of_mem hmem2 hv2)
    rw [houtm] at hs
    obtain ⟨t, ht, rfl⟩ := List.mem_map.mp hs
    cases hvt : t.vals c with
    | some w => rw [fillRow_vals_some _ _ _ _ hvt]; rfl
    | none => rw [fillRow_vals_none _ _ _ hvt]; exact hglob
  · intro hall
    have hall1 : ∀ t ∈ r1, t.vals c = none := by
      intro t ht
      rw [hr1m] at ht
      obtain ⟨r, hr, rfl⟩ := List.mem_map.mp ht
      rw [fillRow_vals_none _ _ _ (hall r hr)]
      unfold stationMonthMedian
      rw [colOf_eq_nil _ _ (fun a ha => hall a (List.mem_of_mem_filter ha))]
      exact median_nil
    have hall2 : ∀ t ∈ r2, t.vals c = none := by
      intro t ht
      rw [hr2m] at ht
      obtain ⟨r, hr, rfl⟩ := List.mem_map.mp ht
      rw [fillRow_vals_none _ _ _ (hall1 r hr)]
      unfold stationMedian
      rw [colOf_eq_nil _ _ (fun a ha => hall1 a (List.mem_of_mem_filter ha))]
      exact median_nil
    intro s hs
    rw [houtm] at hs
    obtain ⟨t, ht, rfl⟩ := List.mem_map.mp hs
    rw [fillRow_vals_none _ _ _ (hall2 t ht)]
    unfold globalMedian
    rw [colOf_eq_nil _ _ hall2]
    exact median_nil

/-- Example per-station table (one numeric column): station A has values
0, null, null in month 1, values 6 and 12 in month 2, and null in month 3. -/
def exClimRows : List (ClimRow 1) :=
  [ { station := "A", month := 1, vals := fun _ => some 0 },
    { station := "A", month := 1, vals := fun _ => none },
    { station := "A", month := 1, vals := fun _ => none },
    { station := "A", month := 2, vals := fun _ => some 6 },
    { station := "A", month := 2, vals := fun _ => some 12 },
    { station := "A", month := 3, vals := fun _ => none } ]

theorem impute_completeness_and_preservation_witness :
    (∃ r ∈ exClimRows, (r.vals 0).isSome) ∧
    (∀ s ∈ imputeStationClimate2017 exClimRows, (s.vals 0).isSome) := by
  refine ⟨by decide, ?_⟩
  exact (impute_completeness_and_preservation exClimRows 0).2.2.1 (by decide)

/-- C3 counterexample: the code fills the month-3 null of station A with 0,
the station median of the stage-1-imputed column [0, 0, 0, 6, 12], while a
cascade whose medians all come from the input's non-null values would fill
it with 6, the median of [0, 6, 12].  So stage 2 (and stage 3) do not use
the input's non-null values. -/
theorem impute_input_median_counterexample :
    ((imputeStationClimate2017 exClimRows).get? 5).bind (fun r => r.vals 0) = some 0 ∧
    ((imputeAllInputMedians exClimRows).get? 5).bind (fun r => r.vals 0) = some 6 ∧
    ((imputeStationClimate2017 exClimRows).get? 5).bind (fun r => r.vals 0) ≠
      ((imputeAllInputMedians exClimRows).get? 5).bind (fun r => r.vals 0) := by
  refine ⟨by decide, by decide, by decide⟩

/-- C3 amended: the cascade fills each null cell in strict priority order,
but only stage 1 uses medians of the input: a null takes the
(station, month) median of the input; if that is null, the per-station
median of the stage-1 result; if that is still null, the global median of
the stage-2 result.  Non-null cells and the grouping keys are unchanged. -/
theorem impute_cascade_order {k : Nat} (rows : List (ClimRow k)) (i : Nat) (r : ClimRow k)
    (hi : rows.get? i = some r) :
    ∃ s, (imputeStationClimate2017 rows).get? i = some s ∧
      s.station = r.station ∧ s.month = r.month ∧
      ∀ c, s.vals c =
        (match r.vals c with
         | some v => some v
         | none =>
           match stationMonthMedian rows r.station r.month c with
           | some m1 => some m1
           | none =>
             match stationMedian
                 (fillWith rows (fun t c2 => stationMonthMedian rows t.station t.month c2))
                 r.station c with
             | some m2 => some m2
             | none =>
               globalMedian
                 (fillWith
                   (fillWith rows (fun t c2 => stationMonthMedian rows t.station t.month c2))
                   (fun t c2 =>
                     stationMedian
                       (fillWith rows (fun t2 c3 => stationMonthMedian rows t2.station t2.month c3))
                       t.station c2)) c) := by
  set g1 : ClimRow k → ClimRow k :=
    fillRow (fun t c2 => stationMonthMedian rows t.station t.month c2) with hg1
  set r1 : List (ClimRow k) :=
    fillWith rows (fun t c2 => stationMonthMedian rows t.station t.month c2) with hr1
  set g2 : ClimRow k → ClimRow k := fillRow (fun t c2 => stationMedian r1 t.station c2) with hg2
  set r2 : List (ClimRow k) := fillWith r1 (fun t c2 => stationMedian r1 t.station c2) with hr2
  have houtm : imputeStationClimate2017 rows = r2.map (fillRow (fun _ c2 => globalMedian r2 c2)) :=
    rfl
  have hr1m : r1 = rows.map g1 := rfl
  have hr2m : r2 = r1.map g2 := rfl
  refine ⟨fillRow (fun _ c2 => globalMedian r2 c2) (g2 (g1 r)), ?_, rfl, rfl, ?_⟩
  · rw [houtm, hr2m, hr1m]
    rw [List.get?_eq_getElem?] at hi ⊢
    simp [List.getElem?_map, hi]
  · intro c
    cases hv : r.vals c with
    | some v =>
      rw [fillRow_vals_some _ _ _ _ (fillRow_vals_some _ _ _ _ (fillRow_vals_some _ _ _ _ hv))]
    | none =>
      have h1 : (g1 r).vals c = stationMonthMedian rows r.station r.month c :=
        fillRow_vals_none _ _ _ hv
      cases hm1 : stationMonthMedian rows r.station r.month c with
      | some m1 =>
        have h1s : (g1 r).vals c = some m1 := by rw [h1, hm1]
        rw [fillRow_vals_some _ _ _ _ (fillRow_vals_some _ _ _ _ h1s)]
      | none =>
        have h1n : (g1 r).vals c = none := by rw [h1, hm1]
        have h2 : (g2 (g1 r)).vals c = stationMedian r1 r.station c := by
          rw [hg2, fillRow_vals_none _ _ _ h1n, hg1, fillRow_station]
        cases hm2 : stationMedian r1 r.station c with
        | some m2 =>
          have h2s : (g2 (g1 r)).vals c = some m2 := by rw [h2, hm2]
          rw [fillRow_vals_some _ _ _ _ h2s]
        | none =>
          have h2n : (g2 (g1 r)).vals c = none := by rw [h2, hm2]
          rw [fillRow_vals_none _ _ _ h2n]

theorem impute_cascade_order_witness :
    ∃ s, (imputeStationClimate2017 exClimRows).get? 5 = some s ∧ s.station = "A" := by
  obtain ⟨s, hs, hst, -, -⟩ := impute_cascade_order exClimRows 5
    { station := "A", month := 3, vals := fun _ => none } rfl
  exact ⟨s, hs, by rw [hst]⟩

/-- Station inventory row after coordinate/date parsing: identifier, name,
province, parsed coordinates (none when unparseable), and the activation /
deactivation timestamps (none models NaT). -/
structure Station where
  indicativo : String
  nombre : String
  provincia : String
  lat : Option ℚ
  lon : Option ℚ
  fechaAlta : Option Int
  fechaBaja : Option Int
  deriving DecidableEq, Repr

/-- Profile row restricted to what `assign_nearest_station` reads: the
identifier and the numeric-coerced coordinates. -/
structure Profile where
  profile_id : String
  lat : Option ℚ
  lon : Option ℚ
  deriving DecidableEq, Repr

/-- One output row of `assign_nearest_station`. -/
structure Assignment where
  profile_id : String
  nearest_station : String
  station_name : String
  station_provincia : String
  distance_km : ℚ
  station_active : Bool
  station_rank_used : Nat
  deriving DecidableEq, Repr

/-- Encoding of a `pd.Timestamp` that preserves chronological order:
year, month, day and second-of-day packed into one integer. -/
def tsOf (y m d secs : Int) : Int := (y * 10000 + m * 100 + d) * 100000 + secs

/-- Timestamp of `"{year}-01-01"`. -/
def yearStartTs (year : Int) : Int := tsOf year 1 1 0

/-- Timestamp of `"{year}-12-31 23:59:59"`. -/
def yearEndTs (year : Int) : Int := tsOf year 12 31 86399

/-- Per-station translation of `_active_mask_for_year` (lines 649-664) and
of the identical 2017 mask of `get_aemet_stations` (lines 618-622): active
iff `fechaAlta` is unset or ≤ year end, and `fechaBaja` is unset or ≥ year
start. -/
def activeForYear (s : Station) (year : Int) : Bool :=
  (match s.fechaAlta with
   | none => true
   | some t => decide (t ≤ yearEndTs year)) &&
  (match s.fechaBaja with
   | none => true
   | some t => decide (yearStartTs year ≤ t))

/-- Keep rows whose lat and lon are both non-null
(`dropna(subset=["lat","lon"])`). -/
def profValid (p : Profile) : Bool := p.lat.isSome && p.lon.isSome

def stValid (s : Station) : Bool := s.lat.isSome && s.lon.isSome

/-- Latitude within [-90, 90] and longitude within [-180, 180]; pandas
`between` is false on NaN, so a missing coordinate fails the filter. -/
def coordsInRange (s : Station) : Bool :=
  (match s.lat with
   | some q => decide (-90 ≤ q ∧ q ≤ 90)
   | none => false) &&
  (match s.lon with
   | some q => decide (-180 ≤ q ∧ q ≤ 180)
   | none => false)

/-- Filtering stage of `get_aemet_stations` (lines 606-622): discard rows
with out-of-range or unparseable coordinates, then keep only the stations
active at some moment of 2017. -/
def aemetStationsFilter (inventory : List Station) : List Station :=
  (inventory.filter coordsInRange).filter (fun s => activeForYear s 2017)

/-- Distance function abstracting the float haversine block (lines 696-706):
given profile latitude/longitude and station latitude/longitude, return the
distance. -/
def DistFn : Type := ℚ → ℚ → ℚ → ℚ → ℚ

/-- Distance row of one profile against every station (the model keeps the
station next to its distance instead of using a positional index). -/
def stationDistances (dist : DistFn) (p : Profile) (st : List Station) :
    List (Station × ℚ) :=
  st.map (fun s => (s, dist (p.lat.getD 0) (p.lon.getD 0) (s.lat.getD 0) (s.lon.getD 0)))

/-- Ascending-distance order of the candidate stations for one profile
(`order = np.argsort(dist_km, axis=1)`, one row). -/
def distSorted (dist : DistFn) (p : Profile) (st : List Station) : List (Station × ℚ) :=
  sortByKey (fun sd => sd.2) (stationDistances dist p st)

/-- Index of the first element satisfying `p`
(`np.argmax(active_ord)` guarded by `active_ord.any()`). -/
def firstTrueIdx {α : Type} (p : α → Bool) : List α → Option Nat
  | [] => none
  | x :: xs => if p x then some 0 else (firstTrueIdx p xs).map (· + 1)

lemma firstTrueIdx_eq_none_iff {α : Type} (p : α → Bool) (l : List α) :
    firstTrueIdx p l = none ↔ ∀ x ∈ l, p x = false := by
  induction l with
  | nil => simp [firstTrueIdx]
  | cons x xs ih =>
    rw [firstTrueIdx]
    by_cases hx : p x
    · simp [hx]
    · have hx2 : p x = false := by simpa using hx
      simp [hx, Option.map_eq_none, ih, hx2]

lemma firstTrueIdx_spec {α : Type} (p : α → Bool) (l : List α) (k : Nat)
    (h : firstTrueIdx p l = some k) :
    ∃ x, l.get? k = some x ∧ p x = true ∧
      ∀ j, j < k → ∀ y, l.get? j = some y → p y = false := by
  induction l generalizing k with
  | nil => simp [firstTrueIdx] at h
  | cons x xs ih =>
    rw [firstTrueIdx] at h
    by_cases hx : p x
    · rw [if_pos hx] at h
      injection h with h0
      subst h0
      exact ⟨x, rfl, hx, fun j hj => absurd hj (Nat.not_lt_zero j)⟩
    · rw [if_neg hx] at h
      rcases Option.map_eq_some.mp h with ⟨k2, hk2, hkk⟩
      subst hkk
      obtain ⟨x2, hget, hpx2, hbefore⟩ := ih k2 hk2
      refine ⟨x2, hget, hpx2, ?_⟩
      intro j hj y hy
      cases j with
      | zero =>
        rw [List.get?_cons_zero] at hy
        injection hy with hy0
        subst hy0
        simpa using hx
      | succ j2 =>
        rw [List.get?_cons_succ] at hy
        exact hbefore j2 (by omega) y hy

/-- Choice of the station for one profile (loop body, lines 717-734): take
the first active station in ascending-distance order with its 1-based rank;
if none is active, the nearest station with rank 1 and an inactive flag. -/
def assignOne (dist : DistFn) (year : Int) (p : Profile) (st : List Station) :
    Option Assignment :=
  match firstTrueIdx (fun sd => activeForYear sd.1 year) (distSorted dist p st) with
  | some k =>
    ((distSorted dist p st).get? k).map (fun sd =>
      { profile_id := p.profile_id
        nearest_station := sd.1.indicativo
        station_name := sd.1.nombre
        station_provincia := sd.1.provincia
        distance_km := sd.2
        station_active := true
        station_rank_used := k + 1 })
  | none =>
    (distSorted dist p st).head?.map (fun sd =>
      { profile_id := p.profile_id
        nearest_station := sd.1.indicativo
        station_name := sd.1.nombre
        station_provincia := sd.1.provincia
        distance_km := sd.2
        station_active := false
        station_rank_used := 1 })

/-- Translation of `assign_nearest_station` (lines 666-752): coerce and drop
profiles without coordinates (error when none is left), drop stations
without coordinates (error when none is left), then assign each remaining
profile independently. -/
def assignNearestStation (dist : DistFn) (perfiles : List Profile)
    (stations : List Station) (year : Int) : Except String (List Assignment) :=
  if perfiles.filter profValid = [] then
    Except.error "Ningun perfil tiene lat/lon validos."
  else if stations.filter stValid = [] then
    Except.error "No hay estaciones con lat/lon validos."
  else
    Except.ok ((perfiles.filter profValid).filterMap
      (fun p => assignOne dist year p (stations.filter stValid)))

lemma length_distSorted (dist : DistFn) (p : Profile) (st : List Station) :
    (distSorted dist p st).length = st.length := by
  unfold distSorted stationDistances
  rw [length_sortByKey, List.length_map]

lemma assignOne_isSome (dist : DistFn) (year : Int) (p : Profile) (st : List Station)
    (h : st ≠ []) : (assignOne dist year p st).isSome := by
  have hne : distSorted dist p st ≠ [] := by
    intro h0
    apply h
    have := length_distSorted dist p st
    rw [h0] at this
    exact List.length_eq_zero.mp this.symm
  unfold assignOne
  cases hidx : firstTrueIdx (fun sd => activeForYear sd.1 year) (distSorted dist p st) with
  | some k =>
    obtain ⟨x, hget, -, -⟩ := firstTrueIdx_spec _ _ _ hidx
    show (((distSorted dist p st).get? k).map _).isSome = true
    rw [hget]
    rfl
  | none =>
    obtain ⟨x, xs, hcons⟩ := List.exists_cons_of_ne_nil hne
    show ((distSorted dist p st).head?.map _).isSome = true
    rw [hcons]
    rfl

lemma filterMap_isSome_length {α β : Type} (f : α → Option β) (l : List α)
    (h : ∀ x ∈ l, (f x).isSome) : (l.filterMap f).length = l.length := by
  induction l with
  | nil => rfl
  | cons x xs ih =>
    obtain ⟨b, hb⟩ := Option.isSome_iff_exists.mp (h x (by simp))
    rw [List.filterMap_cons, hb]
    simp only [List.length_cons]
    rw [ih (fun y hy => h y (by simp [hy]))]

lemma filterMap_isSome_get? {α β : Type} (f : α → Option β) (l : List α)
    (h : ∀ x ∈ l, (f x).isSome) (i : Nat) :
    (l.filterMap f).get? i = (l.get? i).bind f := by
  induction l generalizing i with
  | nil => simp
  | cons x xs ih =>
    obtain ⟨b, hb⟩ := Option.isSome_iff_exists.mp (h x (by simp))
    rw [List.filterMap_cons, hb]
    cases i with
    | zero => simp [hb]
    | succ i2 =>
      rw [List.get?_cons_succ, List.get?_cons_succ]
      exact ih (fun y hy => h y (by simp [hy])) i2

lemma distSorted_ne_nil (dist : DistFn) (p : Profile) {stv : List Station}
    (h : stv ≠ []) : distSorted dist p stv ≠ [] := by
  intro h0
  apply h
  have := length_distSorted dist p stv
  rw [h0] at this
  exact List.length_eq_zero.mp this.symm

lemma mem_stationDistances_fst {dist : DistFn} {p : Profile} {st : List Station}
    {sd : Station × ℚ} (h : sd ∈ stationDistances dist p st) : sd.1 ∈ st := by
  unfold stationDistances at h
  obtain ⟨s, hs, rfl⟩ := List.mem_map.mp h
  exact hs

lemma assignOne_eq_of_some (dist : DistFn) (year : Int) (p : Profile) (st : List Station)
    (k : Nat)
    (h : firstTrueIdx (fun sd => activeForYear sd.1 year) (distSorted dist p st) = some k) :
    assignOne dist year p st = ((distSorted dist p st).get? k).map (fun sd =>
      { profile_id := p.profile_id
        nearest_station := sd.1.indicativo
        station_name := sd.1.nombre
        station_provincia := sd.1.provincia
        distance_km := sd.2
        station_active := true
        station_rank_used := k + 1 }) := by
  unfold assignOne
  rw [h]

lemma assignOne_eq_of_none (dist : DistFn) (year : Int) (p : Profile) (st : List Station)
    (h : firstTrueIdx (fun sd => activeForYear sd.1 year) (distSorted dist p st) = none) :
    assignOne dist year p st = (distSorted dist p st).head?.map (fun sd =>
      { profile_id := p.profile_id
        nearest_station := sd.1.indicativo
        station_name := sd.1.nombre
        station_provincia := sd.1.provincia
        distance_km := sd.2
        station_active := false
        station_rank_used := 1 }) := by
  unfold assignOne
  rw [h]

/-- Claim-side characterization of the Assignment produced for one profile
against the coordinate-valid station list `stv`: there is an
ascending-by-distance ordering of the candidates (a sorted permutation of
the distance row); when some candidate is active for the year, the chosen
station is the first active one in that ordering, its 1-based rank is
recorded and the active flag is true; when none is active, the chosen
station is an overall-nearest one, with rank 1 and the active flag false. -/
def AssignSpec (dist : DistFn) (year : Int) (p : Profile) (stv : List Station)
    (a : Assignment) : Prop :=
  a.profile_id = p.profile_id ∧
  List.Perm (distSorted dist p stv) (stationDistances dist p stv) ∧
  (distSorted dist p stv).Pairwise (fun u v => u.2 ≤ v.2) ∧
  ((∃ s ∈ stv, activeForYear s year = true) →
    a.station_active = true ∧ 1 ≤ a.station_rank_used ∧
    ∃ sd, (distSorted dist p stv).get? (a.station_rank_used - 1) = some sd ∧
      a.nearest_station = sd.1.indicativo ∧ a.station_name = sd.1.nombre ∧
      a.distance_km = sd.2 ∧ activeForYear sd.1 year = true ∧
      ∀ j, j < a.station_rank_used - 1 → ∀ sd2,
        (distSorted dist p stv).get? j = some sd2 → activeForYear sd2.1 year = false) ∧
  ((∀ s ∈ stv, activeForYear s year = false) →
    a.station_active = false ∧ a.station_rank_used = 1 ∧
    ∃ sd, sd ∈ stationDistances dist p stv ∧ a.nearest_station = sd.1.indicativo ∧
      a.distance_km = sd.2 ∧ ∀ sd2 ∈ stationDistances dist p stv, sd.2 ≤ sd2.2)

lemma assignOne_spec (dist : DistFn) (year : Int) (p : Profile) (stv : List Station)
    (h : stv ≠ []) :
    ∃ a, assignOne dist year p stv = some a ∧ AssignSpec dist year p stv a := by
  cases hidx : firstTrueIdx (fun sd => activeForYear sd.1 year) (distSorted dist p stv) with
  | some k =>
    obtain ⟨sd, hget, hact, hbefore⟩ := firstTrueIdx_spec _ _ _ hidx
    refine ⟨{ profile_id := p.profile_id
              nearest_station := sd.1.indicativo
              station_name := sd.1.nombre
              station_provincia := sd.1.provincia
              distance_km := sd.2
              station_active := true
              station_rank_used := k + 1 }, ?_, ?_⟩
    · rw [assignOne_eq_of_some dist year p stv k hidx, hget]
      rfl
    · refine ⟨rfl, perm_sortByKey _ _, pairwise_sortByKey _ _, ?_, ?_⟩
      · intro hex
        exact ⟨rfl, Nat.succ_le_succ (Nat.zero_le k), sd, hget, rfl, rfl, rfl, hact,
          fun j hj sd2 hsd2 => hbefore j hj sd2 hsd2⟩
      · intro hall
        exfalso
        have hsdmem : sd ∈ distSorted dist p stv := List.get?_mem hget
        have hsd2 : sd ∈ stationDistances dist p stv :=
          (perm_sortByKey _ _).mem_iff.mp hsdmem
        have h1 := hall sd.1 (mem_stationDistances_fst hsd2)
        rw [h1] at hact
        cases hact
  | none =>
    have hallf := (firstTrueIdx_eq_none_iff _ _).mp hidx
    obtain ⟨x, xs, hcons⟩ := List.exists_cons_of_ne_nil (distSorted_ne_nil dist p h)
    refine ⟨{ profile_id := p.profile_id
              nearest_station := x.1.indicativo
              station_name := x.1.nombre
              station_provincia := x.1.provincia
              distance_km := x.2
              station_active := false
              station_rank_used := 1 }, ?_, ?_⟩
    · rw [assignOne_eq_of_none dist year p stv hidx, hcons]
      rfl
    · refine ⟨rfl, perm_sortByKey _ _, pairwise_sortByKey _ _, ?_, ?_⟩
      · rintro ⟨s, hs, hact⟩
        exfalso
        have hmem : (s, dist (p.lat.getD 0) (p.lon.getD 0) (s.lat.getD 0) (s.lon.getD 0)) ∈
            stationDistances dist p stv := List.mem_map_of_mem _ hs
        have hmem2 := (perm_sortByKey (fun sd => sd.2) (stationDistances dist p stv)).mem_iff.mpr hmem
        have hf := hallf _ hmem2
        simp only at hf
        rw [hf] at hact
        cases hact
      · intro _hall
        have hxmem : x ∈ stationDistances dist p stv :=
          (perm_sortByKey _ _).mem_iff.mp (hcons ▸ List.mem_cons_self x xs)
        refine ⟨rfl, rfl, x, hxmem, rfl, rfl, ?_⟩
        intro sd2 hsd2
        have hsd2s : sd2 ∈ distSorted dist p stv :=
          (perm_sortByKey _ _).mem_iff.mpr hsd2
        rw [hcons] at hsd2s
        rcases List.mem_cons.mp hsd2s with rfl | hmem
        · exact le_refl _
        · have hpw := pairwise_sortByKey (fun sd => sd.2) (stationDistances dist p stv)
          have hpw2 : (distSorted dist p stv).Pairwise (fun u v => u.2 ≤ v.2) := hpw
          rw [hcons, List.pairwise_cons] at hpw2
          exact hpw2.1 sd2 hmem

/-- C1: with at least one coordinate-valid profile and one coordinate-valid
station, `assign_nearest_station` succeeds with exactly one Assignment per
valid profile; each row picks the first temporally active station in
ascending-distance order with its 1-based rank and an active flag, and falls
back to the overall nearest station with rank 1 and a false flag when no
candidate is active for the target year. -/
theorem assign_nearest_station_spec (dist : DistFn) (perfiles : List Profile)
    (stations : List Station) (year : Int)
    (hpf : perfiles.filter profValid ≠ [])
    (hst : stations.filter stValid ≠ []) :
    ∃ out, assignNearestStation dist perfiles stations year = Except.ok out ∧
      out.length = (perfiles.filter profValid).length ∧
      ∀ i p, (perfiles.filter profValid).get? i = some p →
        ∃ a, out.get? i = some a ∧ AssignSpec dist year p (stations.filter stValid) a := by
  have hsome : ∀ p ∈ perfiles.filter profValid,
      (assignOne dist year p (stations.filter stValid)).isSome :=
    fun p _ => assignOne_isSome dist year p _ hst
  refine ⟨(perfiles.filter profValid).filterMap
      (fun p => assignOne dist year p (stations.filter stValid)), ?_, ?_, ?_⟩
  · unfold assignNearestStation
    rw [if_neg hpf, if_neg hst]
  · exact filterMap_isSome_length _ _ hsome
  · intro i p hp
    rw [filterMap_isSome_get? _ _ hsome i, hp]
    obtain ⟨a, ha, hspec⟩ := assignOne_spec dist year p (stations.filter stValid) hst
    exact ⟨a, by rw [Option.some_bind]; exact ha, hspec⟩

/-- Distance model for the example: station at latitude 41 is nearer
(distance 1) than any other (distance 2). -/
def exDistC1 : DistFn := fun _ _ slat _ => if slat = 41 then 1 else 2

def exProfilesC1 : List Profile :=
  [{ profile_id := "P1", lat := some 40, lon := some (-3) }]

/-- Stations for the example: S active through 2017, T nearer but
deactivated on 2016-12-31. -/
def exStationsC1 : List Station :=
  [ { indicativo := "S", nombre := "SN", provincia := "PR", lat := some 40,
      lon := some (-3), fechaAlta := none, fechaBaja := none },
    { indicativo := "T", nombre := "TN", provincia := "PR", lat := some 41,
      lon := some (-3), fechaAlta := none, fechaBaja := some (tsOf 2016 12 31 0) } ]

theorem assign_nearest_station_spec_witness :
    (exProfilesC1.filter profValid ≠ [] ∧ exStationsC1.filter stValid ≠ []) ∧
    ∃ out, assignNearestStation exDistC1 exProfilesC1 exStationsC1 2017 = Except.ok out ∧
      out.length = 1 := by
  obtain ⟨out, hok, hlen, -⟩ :=
    assign_nearest_station_spec exDistC1 exProfilesC1 exStationsC1 2017 (by decide) (by decide)
  refine ⟨⟨by decide, by decide⟩, out, hok, ?_⟩
  rw [hlen]
  decide

/-- C9: when the station list comes from `get_aemet_stations` — which keeps
only stations active in 2017 — every Assignment produced by
`assign_nearest_station` for 2017 has the active flag true and rank 1: the
inactive-fallback branch is unreachable in the composed pipeline. -/
theorem aemet_filtered_always_active (dist : DistFn) (inventory : List Station)
    (perfiles : List Profile) (out : List Assignment)
    (hok : assignNearestStation dist perfiles (aemetStationsFilter inventory) 2017
      = Except.ok out) :
    ∀ a ∈ out, a.station_active = true ∧ a.station_rank_used = 1 := by
  unfold assignNearestStation at hok
  by_cases h1 : perfiles.filter profValid = []
  · rw [if_pos h1] at hok
    cases hok
  rw [if_neg h1] at hok
  by_cases h2 : (aemetStationsFilter inventory).filter stValid = []
  · rw [if_pos h2] at hok
    cases hok
  rw [if_neg h2] at hok
  injection hok with hout
  intro a ha
  rw [← hout] at ha
  obtain ⟨p, hp, hap⟩ := List.mem_filterMap.mp ha
  have hallactive : ∀ s ∈ (aemetStationsFilter inventory).filter stValid,
      activeForYear s 2017 = true := by
    intro s hs
    exact (List.mem_filter.mp (List.mem_of_mem_filter hs)).2
  obtain ⟨x, xs, hcons⟩ :=
    List.exists_cons_of_ne_nil (distSorted_ne_nil dist p h2)
  have hx : activeForYear x.1 2017 = true := by
    apply hallactive
    apply mem_stationDistances_fst
    exact (perm_sortByKey _ _).mem_iff.mp (hcons ▸ List.mem_cons_self x xs)
  have hidx : firstTrueIdx (fun sd => activeForYear sd.1 2017)
      (distSorted dist p ((aemetStationsFilter inventory).filter stValid)) = some 0 := by
    rw [hcons]
    simp [firstTrueIdx, hx]
  rw [assignOne_eq_of_some dist 2017 p _ 0 hidx, hcons] at hap
  rw [List.get?_cons_zero] at hap
  rw [Option.map_some'] at hap
  injection hap with haeq
  rw [← haeq]
  exact ⟨rfl, rfl⟩

/-- Distance model that treats every station as equally distant. -/
def exDist0 : DistFn := fun _ _ _ _ => 0

def exProfilesC9 : List Profile :=
  [{ profile_id := "P1", lat := some 40, lon := some (-3) }]

/-- Raw inventory for the example: one station active through 2017 and one
deactivated on 2016-06-01 that `get_aemet_stations` discards. -/
def exInventoryC9 : List Station :=
  [ { indicativo := "S", nombre := "SN", provincia := "PR", lat := some 40,
      lon := some (-3), fechaAlta := none, fechaBaja := none },
    { indicativo := "U", nombre := "UN", provincia := "PR", lat := some 39,
      lon := some (-2), fechaAlta := none, fechaBaja := some (tsOf 2016 6 1 0) } ]

def exOutC9 : List Assignment :=
  [{ profile_id := "P1", nearest_station := "S", station_name := "SN",
     station_provincia := "PR", distance_km := 0, station_active := true,
     station_rank_used := 1 }]

theorem aemet_filtered_always_active_witness :
    assignNearestStation exDist0 exProfilesC9 (aemetStationsFilter exInventoryC9) 2017
      = Except.ok exOutC9 ∧
    ∀ a ∈ exOutC9, a.station_active = true ∧ a.station_rank_used = 1 := by
  have hok : assignNearestStation exDist0 exProfilesC9 (aemetStationsFilter exInventoryC9) 2017
      = Except.ok exOutC9 := by rfl
  exact ⟨hok, aemet_filtered_always_active exDist0 exInventoryC9 exProfilesC9 exOutC9 hok⟩

/-- Calendar date (year, month, day). -/
structure DayDate where
  y : Int
  m : Int
  d : Int
  deriving DecidableEq, Repr

/-- Gregorian leap-year rule used by `calendar.monthrange`. -/
def isLeap (y : Int) : Bool :=
  (y % 4 == 0 && y % 100 != 0) || (y % 400 == 0)

/-- Translation of `_last_day_of_month` (lines 71-73). -/
def lastDayOfMonth (y m : Int) : Int :=
  if m = 2 then (if isLeap y then 29 else 28)
  else if m = 4 ∨ m = 6 ∨ m = 9 ∨ m = 11 then 30
  else 31

/-- The four partition levels of `get_daily_climate_year` (lines 808-814):
whole year, two half-years, four quarters, twelve calendar months, in that
order. -/
def yearRanges (year : Int) : List (List (DayDate × DayDate)) :=
  [ [ (⟨year, 1, 1⟩, ⟨year, 12, 31⟩) ],
    [ (⟨year, 1, 1⟩, ⟨year, 6, 30⟩), (⟨year, 7, 1⟩, ⟨year, 12, 31⟩) ],
    [ (⟨year, 1, 1⟩, ⟨year, 3, 31⟩), (⟨year, 4, 1⟩, ⟨year, 6, 30⟩),
      (⟨year, 7, 1⟩, ⟨year, 9, 30⟩), (⟨year, 10, 1⟩, ⟨year, 12, 31⟩) ],
    (List.range 12).map (fun i =>
      (⟨year, (i : Int) + 1, 1⟩, ⟨year, (i : Int) + 1, lastDayOfMonth year ((i : Int) + 1)⟩)) ]

/-- JSON-ish scalar stored in one cell of a daily record: a raw string, a
number, a parsed datetime, or null/NaN. -/
inductive JVal where
  | str (s : String)
  | num (q : ℚ)
  | date (d : DayDate)
  | null
  deriving DecidableEq, Repr

/-- One daily record with the modelled columns: the date string, the derived
month, one plain numeric measurement (`tmed`) and the precipitation column
(`prec`), which has the extra Ip→0 rule. -/
structure DayRec where
  fecha : JVal
  month : JVal
  tmed : JVal
  prec : JVal
  deriving DecidableEq, Repr

/-- Strip of leading/trailing spaces (`.str.strip()`). -/
def stripChars (cs : List Char) : List Char :=
  ((cs.dropWhile (fun c => c = ' ')).reverse.dropWhile (fun c => c = ' ')).reverse

/-- Split on a separator character, as `"a-b-c".split("-")`. -/
def splitOnChar (sep : Char) : List Char → List (List Char)
  | [] => [[]]
  | c :: cs =>
    let r := splitOnChar sep cs
    if c = sep then [] :: r
    else
      match r with
      | [] => [[c]]
      | h :: t => (c :: h) :: t

/-- Numeric value of a digit string. -/
def digitsVal (cs : List Char) : Nat :=
  cs.foldl (fun n c => n * 10 + (c.toNat - 48)) 0

/-- Parse of an ISO `YYYY-MM-DD` date string, the shape the AEMET daily
payloads carry; anything else coerces to NaT, as
`pd.to_datetime(errors="coerce")` does. -/
def parseDate (s : String) : Option DayDate :=
  match splitOnChar '-' (stripChars s.toList) with
  | [ys, ms, ds] =>
    if ys ≠ [] ∧ ys.all Char.isDigit ∧ ms ≠ [] ∧ ms.all Char.isDigit ∧
        ds ≠ [] ∧ ds.all Char.isDigit then
      if 1 ≤ (digitsVal ms : Int) ∧ (digitsVal ms : Int) ≤ 12 ∧
          1 ≤ (digitsVal ds : Int) ∧ (digitsVal ds : Int) ≤ 31 then
        some ⟨(digitsVal ys : Int), (digitsVal ms : Int), (digitsVal ds : Int)⟩
      else none
    else none
  | _ => none

/-- Parse of a decimal numeral, the shape `pd.to_numeric` accepts after the
comma→dot replacement; anything else coerces to NaN. -/
def parseDecimal (s : String) : Option ℚ :=
  match stripChars s.toList with
  | [] => none
  | c :: rest =>
    let neg := c = '-'
    let body := if c = '-' ∨ c = '+' then rest else c :: rest
    let ip := body.takeWhile (fun ch => ch ≠ '.')
    let dotfp := body.dropWhile (fun ch => ch ≠ '.')
    match dotfp with
    | [] =>
      if ip ≠ [] ∧ ip.all Char.isDigit then
        (if neg then some (-(digitsVal ip : ℚ)) else some ((digitsVal ip : ℚ)))
      else none
    | _ :: fr =>
      if ip.all Char.isDigit ∧ fr.all Char.isDigit ∧ (ip ≠ [] ∨ fr ≠ []) then
        (if neg then some (-((digitsVal ip : ℚ) + (digitsVal fr : ℚ) / ((10 : ℚ) ^ fr.length)))
         else some ((digitsVal ip : ℚ) + (digitsVal fr : ℚ) / ((10 : ℚ) ^ fr.length)))
      else none

/-- Replacement of decimal commas (`.str.replace(",", ".")`). -/
def commaToDot (s : String) : String :=
  String.mk (s.toList.map (fun c => if c = ',' then '.' else c))

/-- `pd.to_datetime(errors="coerce", format="mixed")` on one cell: strings
parse or coerce to NaT; datetimes pass through; numbers and NaN give NaT. -/
def parseDateJ : JVal → JVal
  | .str s =>
    (match parseDate s with
     | some d => .date d
     | none => .null)
  | .date d => .date d
  | _ => .null

/-- One numeric column cell of `_clean_daily_payload`: `astype(str)`, strip,
the Ip→0 precipitation rule when `ipZero`, comma→dot, then
`pd.to_numeric(errors="coerce")`.  A numeric cell round-trips unchanged;
null and datetime cells coerce to NaN. -/
def cleanNumeric (ipZero : Bool) : JVal → JVal
  | .num q => .num q
  | .str s =>
    let t := String.mk (stripChars s.toList)
    let t2 := if ipZero ∧ (t = "Ip" ∨ t = "ip") then "0" else t
    (match parseDecimal (commaToDot t2) with
     | some q => .num q
     | none => .null)
  | _ => .null

/-- Translation of `_clean_daily_payload` (lines 757-768) on one record:
parse `fecha`, derive `month` from it, numerically coerce the measurement
columns. -/
def cleanRec (r : DayRec) : DayRec :=
  { fecha := parseDateJ r.fecha
    month :=
      (match parseDateJ r.fecha with
       | .date d => .num (d.m : ℚ)
       | _ => .null)
    tmed := cleanNumeric false r.tmed
    prec := cleanNumeric true r.prec }

def cleanDailyPayload (rows : List DayRec) : List DayRec := rows.map cleanRec

/-- State of the cache file `climate_{stid}_{year}.json`: absent, present
but unreadable, or readable with a stored JSON payload. -/
inductive CacheState where
  | missing
  | corrupt
  | valid (payload : List DayRec)

/-- Result of one sub-range download by `_fetch_range` (lines 774-794): the
raw records behind the secondary URL, with metadata failures, exhausted
refreshes and exceptions collapsed to an empty list — exactly how
`get_daily_climate_year` treats them. -/
def RangeOracle : Type := DayDate × DayDate → List DayRec

/-- One partition level of the loop (lines 819-829): fetch and clean every
sub-range, keep the non-empty frames, and report whether any sub-range
returned data. -/
def runLevel (oracle : RangeOracle) (rr : List (DayDate × DayDate)) :
    List DayRec × Bool :=
  (((rr.map (fun r => cleanDailyPayload (oracle r))).filter
      (fun df => !df.isEmpty)).flatten,
   (rr.map (fun r => cleanDailyPayload (oracle r))).any (fun df => !df.isEmpty))

/-- Level cascade (lines 816-831): try the levels in order and stop at the
first that produced any data; also record the sub-ranges requested. -/
def runLevels (oracle : RangeOracle) :
    List (List (DayDate × DayDate)) → List DayRec × List (DayDate × DayDate)
  | [] => ([], [])
  | rr :: rest =>
    if (runLevel oracle rr).2 then ((runLevel oracle rr).1, rr)
    else ((runLevels oracle rest).1, rr ++ (runLevels oracle rest).2)

/-- Observable outcome of `get_daily_climate_year`: the records returned,
the sub-ranges requested over the network, and the cache write (none when
nothing is written). -/
structure FetchOutcome where
  records : List DayRec
  requested : List (DayDate × DayDate)
  cacheWrite : Option (List DayRec)
  deriving Repr

/-- Translation of `get_daily_climate_year` (lines 796-839): a readable
cache entry is cleaned and returned with no network traffic; a missing or
corrupt entry falls through to the level cascade; the concatenated result is
written to the cache only when non-empty. -/
def getDailyClimateYear (cache : CacheState) (oracle : RangeOracle) (year : Int) :
    FetchOutcome :=
  match cache with
  | .valid payload =>
    { records := cleanDailyPayload payload, requested := [], cacheWrite := none }
  | _ =>
    { records := (runLevels oracle (yearRanges year)).1
      requested := (runLevels oracle (yearRanges year)).2
      cacheWrite :=
        if (runLevels oracle (yearRanges year)).1 = [] then none
        else some (runLevels oracle (yearRanges year)).1 }

lemma cleanDailyPayload_eq_nil_iff (l : List DayRec) : cleanDailyPayload l = [] ↔ l = [] := by
  simp [cleanDailyPayload]

lemma runLevel_got_iff (oracle : RangeOracle) (rr : List (DayDate × DayDate)) :
    (runLevel oracle rr).2 = true ↔ ∃ r ∈ rr, oracle r ≠ [] := by
  unfold runLevel
  rw [List.any_eq_true]
  constructor
  · rintro ⟨df, hdf, hne⟩
    obtain ⟨r, hr, rfl⟩ := List.mem_map.mp hdf
    refine ⟨r, hr, ?_⟩
    intro h0
    rw [h0] at hne
    simp [cleanDailyPayload] at hne
  · rintro ⟨r, hr, hne⟩
    refine ⟨cleanDailyPayload (oracle r), List.mem_map_of_mem _ hr, ?_⟩
    simp [List.isEmpty_iff, cleanDailyPayload_eq_nil_iff, hne]

lemma runLevel_records_ne_nil (oracle : RangeOracle) (rr : List (DayDate × DayDate))
    (h : (runLevel oracle rr).2 = true) : (runLevel oracle rr).1 ≠ [] := by
  unfold runLevel at h ⊢
  rw [List.any_eq_true] at h
  obtain ⟨df, hdf, hne⟩ := h
  intro h0
  rw [List.flatten_eq_nil_iff] at h0
  have hmem : df ∈ (rr.map (fun r => cleanDailyPayload (oracle r))).filter
      (fun d => !d.isEmpty) := List.mem_filter.mpr ⟨hdf, hne⟩
  have h1 := h0 df hmem
  rw [h1] at hne
  simp at hne

lemma runLevels_cons_got (oracle : RangeOracle) (rr : List (DayDate × DayDate))
    (rest : List (List (DayDate × DayDate))) (h : (runLevel oracle rr).2 = true) :
    runLevels oracle (rr :: rest) = ((runLevel oracle rr).1, rr) := by
  rw [runLevels, if_pos h]

lemma runLevels_cons_not (oracle : RangeOracle) (rr : List (DayDate × DayDate))
    (rest : List (List (DayDate × DayDate))) (h : (runLevel oracle rr).2 = false) :
    runLevels oracle (rr :: rest)
      = ((runLevels oracle rest).1, rr ++ (runLevels oracle rest).2) := by
  rw [runLevels, if_neg (by simp [h])]

lemma runLevels_first_got (oracle : RangeOracle) (levels : List (List (DayDate × DayDate)))
    (i : Nat) (hi : i < levels.length)
    (hbefore : ∀ j, j < i → ∀ r ∈ levels.getD j [], oracle r = [])
    (hgot : ∃ r ∈ levels.getD i [], oracle r ≠ []) :
    runLevels oracle levels
      = ((runLevel oracle (levels.getD i [])).1, (levels.take (i + 1)).flatten) := by
  induction levels generalizing i with
  | nil => simp at hi
  | cons rr rest ih =>
    cases i with
    | zero =>
      rw [List.getD_cons_zero] at hgot ⊢
      have hg : (runLevel oracle rr).2 = true := (runLevel_got_iff _ _).mpr hgot
      rw [runLevels_cons_got _ _ _ hg]
      simp
    | succ i2 =>
      have hempty0 : ∀ r ∈ rr, oracle r = [] := by
        have h1 := hbefore 0 (Nat.succ_pos i2)
        rwa [List.getD_cons_zero] at h1
      have hg0 : (runLevel oracle rr).2 = false := by
        have h1 : ¬((runLevel oracle rr).2 = true) := by
          rw [runLevel_got_iff]
          rintro ⟨r, hr, hne⟩
          exact hne (hempty0 r hr)
        simpa using h1
      rw [runLevels_cons_not _ _ _ hg0]
      have hih := ih i2 (by simpa using hi)
        (fun j hj => by
          have h2 := hbefore (j + 1) (by omega)
          rwa [List.getD_cons_succ] at h2)
        (by rwa [List.getD_cons_succ] at hgot)
      rw [List.getD_cons_succ, hih, List.take_succ_cons, List.flatten_cons]

lemma runLevels_all_empty (oracle : RangeOracle) (levels : List (List (DayDate × DayDate)))
    (hall : ∀ l ∈ levels, ∀ r ∈ l, oracle r = []) :
    runLevels oracle levels = ([], levels.flatten) := by
  induction levels with
  | nil => rfl
  | cons rr rest ih =>
    have hg0 : (runLevel oracle rr).2 = false := by
      have h1 : ¬((runLevel oracle rr).2 = true) := by
        rw [runLevel_got_iff]
        rintro ⟨r, hr, hne⟩
        exact hne (hall rr (List.mem_cons_self rr rest) r hr)
      simpa using h1
    rw [runLevels_cons_not _ _ _ hg0,
      ih (fun l hl => hall l (List.mem_cons_of_mem rr hl))]
    simp [List.flatten_cons]

lemma runLevels_records_nil (oracle : RangeOracle) (levels : List (List (DayDate × DayDate)))
    (h : (runLevels oracle levels).1 = []) :
    ∀ l ∈ levels, ∀ r ∈ l, oracle r = [] := by
  induction levels with
  | nil => simp
  | cons rr rest ih =>
    by_cases hg : (runLevel oracle rr).2 = true
    · rw [runLevels_cons_got _ _ _ hg] at h
      exact absurd h (runLevel_records_ne_nil _ _ hg)
    · have hg0 : (runLevel oracle rr).2 = false := by simpa using hg
      rw [runLevels_cons_not _ _ _ hg0] at h
      intro l hl r hr
      rcases List.mem_cons.mp hl with rfl | hl2
      · have h2 : ¬∃ r2 ∈ l, oracle r2 ≠ [] := by
          rw [← runLevel_got_iff oracle l]
          simp [hg0]
        by_contra hne
        exact h2 ⟨r, hr, hne⟩
      · exact ih h l hl2 r hr

/-- C5: `get_daily_climate_year` tries the whole year, then halves, quarters
and months — levels of sizes 1, 2, 4, 12 in that order; it stops at the
first level where some sub-range returned data, having requested exactly the
ranges of the levels up to that one (never the finer ones), and it returns
empty only when every sub-range of every level yielded nothing. -/
theorem daily_year_partition_levels (oracle : RangeOracle) (year : Int) :
    (yearRanges year).map List.length = [1, 2, 4, 12] ∧
    (∀ i, i < (yearRanges year).length →
      (∀ j, j < i → ∀ r ∈ (yearRanges year).getD j [], oracle r = []) →
      (∃ r ∈ (yearRanges year).getD i [], oracle r ≠ []) →
      (getDailyClimateYear CacheState.missing oracle year).requested
          = ((yearRanges year).take (i + 1)).flatten ∧
      (getDailyClimateYear CacheState.missing oracle year).records
          = (runLevel oracle ((yearRanges year).getD i [])).1 ∧
      (getDailyClimateYear CacheState.missing oracle year).records ≠ []) ∧
    ((getDailyClimateYear CacheState.missing oracle year).records = [] →
      (∀ l ∈ yearRanges year, ∀ r ∈ l, oracle r = []) ∧
      (getDailyClimateYear CacheState.missing oracle year).requested
        = (yearRanges year).flatten) := by
  refine ⟨?_, ?_, ?_⟩
  · rfl
  · intro i hi hb hg
    have h := runLevels_first_got oracle (yearRanges year) i hi hb hg
    have hrec : (getDailyClimateYear CacheState.missing oracle year).records
        = (runLevels oracle (yearRanges year)).1 := rfl
    have hreq : (getDailyClimateYear CacheState.missing oracle year).requested
        = (runLevels oracle (yearRanges year)).2 := rfl
    rw [hreq, hrec, h]
    exact ⟨rfl, rfl, runLevel_records_ne_nil _ _ ((runLevel_got_iff _ _).mpr hg)⟩
  · intro h0
    have hrec : (getDailyClimateYear CacheState.missing oracle year).records
        = (runLevels oracle (yearRanges year)).1 := rfl
    rw [hrec] at h0
    have hall := runLevels_records_nil oracle (yearRanges year) h0
    refine ⟨hall, ?_⟩
    have h2 := runLevels_all_empty oracle (yearRanges year) hall
    have hreq : (getDailyClimateYear CacheState.missing oracle year).requested
        = (runLevels oracle (yearRanges year)).2 := rfl
    rw [hreq, h2]

/-- Example raw record returned for the first half-year. -/
def exRawRec : DayRec :=
  { fecha := JVal.str "2017-01-15", month := JVal.null,
    tmed := JVal.str "5", prec := JVal.str "0" }

/-- Example fetch oracle: only the first half-year window has data. -/
def exOracleC5 : RangeOracle :=
  fun r => if r = (⟨2017, 1, 1⟩, ⟨2017, 6, 30⟩) then [exRawRec] else []

theorem daily_year_partition_levels_witness :
    ((∀ j, j < 1 → ∀ r ∈ (yearRanges 2017).getD j [], exOracleC5 r = []) ∧
      (∃ r ∈ (yearRanges 2017).getD 1 [], exOracleC5 r ≠ [])) ∧
    (getDailyClimateYear CacheState.missing exOracleC5 2017).requested
      = ((yearRanges 2017).take 2).flatten := by
  have h := (daily_year_partition_levels exOracleC5 2017).2.1 1 (by decide)
    (by decide) (by decide)
  exact ⟨⟨by decide, by decide⟩, h.1⟩

/-- Cache payload for the counterexample: valid JSON records whose cells are
raw strings, the shape the AEMET API delivers. -/
def exCachePayload : List DayRec :=
  [{ fecha := JVal.str "2017-03-05", month := JVal.null,
     tmed := JVal.str " 21 ", prec := JVal.str "Ip" }]

/-- C6 counterexample: a cache hit makes no network request, but it returns
the cleaned payload — date parsed, month derived, numbers coerced, Ip mapped
to 0 — not exactly the stored content. -/
theorem cache_hit_exact_counterexample :
    (getDailyClimateYear (CacheState.valid exCachePayload) (fun _ => []) 2017).requested
      = [] ∧
    (getDailyClimateYear (CacheState.valid exCachePayload) (fun _ => []) 2017).records
      = [{ fecha := JVal.date ⟨2017, 3, 5⟩, month := JVal.num 3,
           tmed := JVal.num 21, prec := JVal.num 0 }] ∧
    (getDailyClimateYear (CacheState.valid exCachePayload) (fun _ => []) 2017).records
      ≠ exCachePayload := by
  refine ⟨rfl, by decide, by decide⟩

/-- C6 amended: a readable cache entry short-circuits the network entirely
and returns the stored content passed through `_clean_daily_payload`; a
missing or corrupt entry is not fatal and falls through to the very same
fetch path. -/
theorem cache_hit_cleaned (oracle : RangeOracle) (year : Int) (payload : List DayRec) :
    getDailyClimateYear (CacheState.valid payload) oracle year
      = { records := cleanDailyPayload payload, requested := [], cacheWrite := none } ∧
    getDailyClimateYear CacheState.corrupt oracle year
      = getDailyClimateYear CacheState.missing oracle year :=
  ⟨rfl, rfl⟩

/-- Translation of `_load_done` (lines 845-848): strip each line and drop
the empty ones. -/
def loadDone (fileLines : List String) : List String :=
  (fileLines.map (fun x => String.mk (stripChars x.toList))).filter (fun x => x != "")

/-- First occurrences in order, as `pd.unique` over the station column;
`seen` accumulates the ids already emitted. -/
def uniqFirstAux (seen : List String) : List String → List String
  | [] => []
  | x :: xs => if x ∈ seen then uniqFirstAux seen xs else x :: uniqFirstAux (x :: seen) xs

def uniqFirst (l : List String) : List String := uniqFirstAux [] l

/-- Per-run appends of the station loop: stations attempted, lines appended
to the done file, lines appended to the failed file, cache files written. -/
structure RunOut where
  attempted : List String
  doneApp : List String
  failApp : List String
  cacheWrites : List (String × List DayRec)

/-- Station loop of `build_and_save_climate_2017` (lines 862-876): an id in
the done set is skipped before any work; otherwise the year is fetched — an
unexpected exception (modelled by the `raises` oracle) appends the id to the
failed file, success appends it to the done file; cache writes happen inside
`get_daily_climate_year`. -/
def runStations (done : List String) (cache : String → CacheState)
    (oracle : String → RangeOracle) (raises : String → Bool) :
    List String → RunOut
  | [] => { attempted := [], doneApp := [], failApp := [], cacheWrites := [] }
  | stid :: rest =>
    if stid ∈ done then runStations done cache oracle raises rest
    else if raises stid then
      { attempted := stid :: (runStations done cache oracle raises rest).attempted
        doneApp := (runStations done cache oracle raises rest).doneApp
        failApp := stid :: (runStations done cache oracle raises rest).failApp
        cacheWrites := (runStations done cache oracle raises rest).cacheWrites }
    else
      { attempted := stid :: (runStations done cache oracle raises rest).attempted
        doneApp := stid :: (runStations done cache oracle raises rest).doneApp
        failApp := (runStations done cache oracle raises rest).failApp
        cacheWrites :=
          (match (getDailyClimateYear (cache stid) (oracle stid) 2017).cacheWrite with
           | some w => [(stid, w)]
           | none => []) ++ (runStations done cache oracle raises rest).cacheWrites }

/-- Ledger-level view of one run. -/
structure RunResult where
  attempted : List String
  doneLedger : List String
  failLedger : List String
  cacheWrites : List (String × List DayRec)

/-- Translation of the checkpoint behaviour of `build_and_save_climate_2017`:
read the done file once at startup, walk the unique station ids in order,
and append to the two ledger files; the failed file is never read. -/
def buildAndSaveClimate2017 (doneFile failFile : List String)
    (cache : String → CacheState) (oracle : String → RangeOracle)
    (raises : String → Bool) (profileStations : List String) : RunResult :=
  { attempted :=
      (runStations (loadDone doneFile) cache oracle raises (uniqFirst profileStations)).attempted
    doneLedger := doneFile ++
      (runStations (loadDone doneFile) cache oracle raises (uniqFirst profileStations)).doneApp
    failLedger := failFile ++
      (runStations (loadDone doneFile) cache oracle raises (uniqFirst profileStations)).failApp
    cacheWrites :=
      (runStations (loadDone doneFile) cache oracle raises (uniqFirst profileStations)).cacheWrites }

lemma runStations_not_attempted (done : List String) (cache : String → CacheState)
    (oracle : String → RangeOracle) (raises : String → Bool) (ls : List String)
    (s : String) (h : s ∈ done) :
    s ∉ (runStations done cache oracle raises ls).attempted := by
  induction ls with
  | nil => simp [runStations]
  | cons x xs ih =>
    rw [runStations]
    by_cases hx : x ∈ done
    · rw [if_pos hx]
      exact ih
    · rw [if_neg hx]
      have hxs : s ≠ x := fun he => hx (he ▸ h)
      by_cases hr : raises x
      · rw [if_pos hr]
        intro hmem
        rcases List.mem_cons.mp hmem with he | hmem2
        · exact hxs he
        · exact ih hmem2
      · rw [if_neg hr]
        intro hmem
        rcases List.mem_cons.mp hmem with he | hmem2
        · exact hxs he
        · exact ih hmem2

lemma runStations_attempts (done : List String) (cache : String → CacheState)
    (oracle : String → RangeOracle) (raises : String → Bool) (ls : List String)
    (s : String) (h1 : s ∈ ls) (h2 : s ∉ done) :
    s ∈ (runStations done cache oracle raises ls).attempted := by
  induction ls with
  | nil => cases h1
  | cons x xs ih =>
    rw [runStations]
    rcases List.mem_cons.mp h1 with rfl | h1b
    · rw [if_neg h2]
      by_cases hr : raises s
      · rw [if_pos hr]
        exact List.mem_cons_self _ _
      · rw [if_neg hr]
        exact List.mem_cons_self _ _
    · by_cases hx : x ∈ done
      · rw [if_pos hx]
        exact ih h1b
      · rw [if_neg hx]
        by_cases hr : raises x
        · rw [if_pos hr]
          exact List.mem_cons_of_mem x (ih h1b)
        · rw [if_neg hr]
          exact List.mem_cons_of_mem x (ih h1b)

lemma runStations_done_mem (done : List String) (cache : String → CacheState)
    (oracle : String → RangeOracle) (raises : String → Bool) (ls : List String)
    (s : String) (h1 : s ∈ ls) (h2 : s ∉ done) (h3 : raises s = false) :
    s ∈ (runStations done cache oracle raises ls).doneApp := by
  induction ls with
  | nil => cases h1
  | cons x xs ih =>
    rw [runStations]
    rcases List.mem_cons.mp h1 with rfl | h1b
    · rw [if_neg h2, if_neg (by simp [h3])]
      exact List.mem_cons_self _ _
    · by_cases hx : x ∈ done
      · rw [if_pos hx]
        exact ih h1b
      · rw [if_neg hx]
        by_cases hr : raises x
        · rw [if_pos hr]
          exact ih h1b
        · rw [if_neg hr]
          exact List.mem_cons_of_mem x (ih h1b)

lemma runStations_writes (done : List String) (cache : String → CacheState)
    (oracle : String → RangeOracle) (raises : String → Bool) (ls : List String)
    (s : String) (w : List DayRec)
    (h : (s, w) ∈ (runStations done cache oracle raises ls).cacheWrites) :
    s ∉ done ∧ raises s = false ∧
      (getDailyClimateYear (cache s) (oracle s) 2017).cacheWrite = some w := by
  induction ls with
  | nil => cases h
  | cons x xs ih =>
    rw [runStations] at h
    by_cases hx : x ∈ done
    · rw [if_pos hx] at h
      exact ih h
    · rw [if_neg hx] at h
      by_cases hr : raises x
      · rw [if_pos hr] at h
        exact ih h
      · rw [if_neg hr] at h
        rcases List.mem_append.mp h with hpre | hrest
        · rcases hw : (getDailyClimateYear (cache x) (oracle x) 2017).cacheWrite with - | w2
          · rw [hw] at hpre
            cases hpre
          · rw [hw] at hpre
            rcases List.mem_singleton.mp hpre with heq
            have hs : s = x := congrArg Prod.fst heq
            have hww : w = w2 := congrArg Prod.snd heq
            subst hs
            subst hww
            exact ⟨hx, by simpa using hr, hw⟩
        · exact ih hrest

lemma loadDone_append (a b : List String) : loadDone (a ++ b) = loadDone a ++ loadDone b := by
  unfold loadDone
  rw [List.map_append, List.filter_append]

lemma mem_loadDone_self (l : List String) (s : String)
    (hstrip : String.mk (stripChars s.toList) = s) (hne : s ≠ "") (h : s ∈ l) :
    s ∈ loadDone l := by
  unfold loadDone
  refine List.mem_filter.mpr ⟨?_, by simpa using hne⟩
  have h2 : String.mk (stripChars s.toList) ∈
      List.map (fun x => String.mk (stripChars x.toList)) l :=
    List.mem_map_of_mem _ h
  rwa [hstrip] at h2

/-- C7: a station id present in the done ledger at startup is never
attempted (skipped before any network work); a station id in the work list
that is not in the done ledger is attempted — whatever the failed ledger
contains, since that file is never read. -/
theorem ledger_skip_and_retry (doneFile failFile : List String)
    (cache : String → CacheState) (oracle : String → RangeOracle)
    (raises : String → Bool) (profileStations : List String) (stid : String) :
    (stid ∈ loadDone doneFile →
      stid ∉ (buildAndSaveClimate2017 doneFile failFile cache oracle raises
        profileStations).attempted) ∧
    (stid ∈ uniqFirst profileStations → stid ∉ loadDone doneFile →
      stid ∈ (buildAndSaveClimate2017 doneFile failFile cache oracle raises
        profileStations).attempted) := by
  constructor
  · intro h
    exact runStations_not_attempted _ cache oracle raises _ stid h
  · intro h1 h2
    exact runStations_attempts _ cache oracle raises _ stid h1 h2

theorem ledger_skip_and_retry_witness :
    ("D1" ∈ loadDone ["D1"] ∧
      "D1" ∉ (buildAndSaveClimate2017 ["D1"] ["F1"] (fun _ => CacheState.missing)
        (fun _ _ => []) (fun _ => false) ["D1", "F1"]).attempted) ∧
    ("F1" ∈ uniqFirst ["D1", "F1"] ∧ "F1" ∉ loadDone ["D1"] ∧
      "F1" ∈ (buildAndSaveClimate2017 ["D1"] ["F1"] (fun _ => CacheState.missing)
        (fun _ _ => []) (fun _ => false) ["D1", "F1"]).attempted) := by
  refine ⟨⟨by decide, ?_⟩, by decide, by decide, ?_⟩
  · exact (ledger_skip_and_retry ["D1"] ["F1"] (fun _ => CacheState.missing)
      (fun _ _ => []) (fun _ => false) ["D1", "F1"] "D1").1 (by decide)
  · exact (ledger_skip_and_retry ["D1"] ["F1"] (fun _ => CacheState.missing)
      (fun _ _ => []) (fun _ => false) ["D1", "F1"] "F1").2 (by decide) (by decide)

/-- C10: a station whose fetch yields no records at any granularity gets an
empty result and no cache write, yet the orchestrator appends it to the done
ledger; a later run reading that ledger skips the station even though no
cached data exists for it. -/
theorem empty_station_marked_done (doneFile failFile : List String)
    (cache : String → CacheState) (oracle : String → RangeOracle)
    (raises : String → Bool) (profileStations : List String) (stid : String)
    (hmem : stid ∈ uniqFirst profileStations)
    (hnotdone : stid ∉ loadDone doneFile)
    (hok : raises stid = false)
    (hcache : cache stid = CacheState.missing)
    (hempty : ∀ l ∈ yearRanges 2017, ∀ r ∈ l, oracle stid r = [])
    (hstrip : String.mk (stripChars stid.toList) = stid)
    (hne : stid ≠ "") :
    (getDailyClimateYear (cache stid) (oracle stid) 2017).records = [] ∧
    (getDailyClimateYear (cache stid) (oracle stid) 2017).cacheWrite = none ∧
    stid ∈ (buildAndSaveClimate2017 doneFile failFile cache oracle raises
      profileStations).attempted ∧
    (∀ c, (stid, c) ∉ (buildAndSaveClimate2017 doneFile failFile cache oracle raises
      profileStations).cacheWrites) ∧
    stid ∈ loadDone (buildAndSaveClimate2017 doneFile failFile cache oracle raises
      profileStations).doneLedger ∧
    (∀ failFile2 cache2 oracle2 raises2,
      stid ∉ (buildAndSaveClimate2017
        (buildAndSaveClimate2017 doneFile failFile cache oracle raises
          profileStations).doneLedger
        failFile2 cache2 oracle2 raises2 profileStations).attempted) := by
  have hrl := runLevels_all_empty (oracle stid) (yearRanges 2017) hempty
  have hrec : (getDailyClimateYear (cache stid) (oracle stid) 2017).records = [] := by
    rw [hcache]
    show (runLevels (oracle stid) (yearRanges 2017)).1 = []
    rw [hrl]
  have hwr : (getDailyClimateYear (cache stid) (oracle stid) 2017).cacheWrite = none := by
    rw [hcache]
    show (if (runLevels (oracle stid) (yearRanges 2017)).1 = [] then none
      else some (runLevels (oracle stid) (yearRanges 2017)).1) = none
    rw [hrl]
    rfl
  have hdoneapp : stid ∈ (runStations (loadDone doneFile) cache oracle raises
      (uniqFirst profileStations)).doneApp :=
    runStations_done_mem _ cache oracle raises _ stid hmem hnotdone hok
  have hledger : stid ∈ loadDone (buildAndSaveClimate2017 doneFile failFile cache oracle
      raises profileStations).doneLedger := by
    show stid ∈ loadDone (doneFile ++ _)
    rw [loadDone_append]
    exact List.mem_append_right _ (mem_loadDone_self _ stid hstrip hne hdoneapp)
  refine ⟨hrec, hwr, runStations_attempts _ cache oracle raises _ stid hmem hnotdone,
    ?_, hledger, ?_⟩
  · intro c hc
    have h1 := runStations_writes _ cache oracle raises _ stid c hc
    rw [hwr] at h1
    cases h1.2.2
  · intro failFile2 cache2 oracle2 raises2
    exact runStations_not_attempted _ cache2 oracle2 raises2 _ stid hledger

theorem empty_station_marked_done_witness :
    (getDailyClimateYear ((fun _ => CacheState.missing) "X") ((fun _ _ => []) "X") 2017).records
      = [] ∧
    "X" ∈ (buildAndSaveClimate2017 [] [] (fun _ => CacheState.missing) (fun _ _ => [])
      (fun _ => false) ["X"]).attempted ∧
    "X" ∈ loadDone (buildAndSaveClimate2017 [] [] (fun _ => CacheState.missing)
      (fun _ _ => []) (fun _ => false) ["X"]).doneLedger := by
  have h := empty_station_marked_done [] [] (fun _ => CacheState.missing) (fun _ _ => [])
    (fun _ => false) ["X"] "X" (by decide) (by decide) rfl rfl (by decide) (by decide)
    (by decide)
  exact ⟨h.1, h.2.2.1, h.2.2.2.2.1⟩

end Portfolio
